import Mathlib

/-!
Verification of the aggregation/reporting pipeline of `dashboard/dashboard.py`
(an e-commerce data-exploration dashboard built on pandas).  The pandas
dataframe is shallowly embedded as a list of rows plus explicit column-presence
flags; the pipeline functions (`prepare_data`, the date-range filter from
`main`, `plot_total_sales_by_state`, `plot_sales_trends_top_products`,
`get_top_products`) are translated into executable Lean functions following the
pandas semantics of `groupby` (null keys dropped, keys sorted ascending),
`count`, `sort_values`, `nlargest` and `to_datetime(errors="coerce")`.
-/

namespace Dashboard

/-- A calendar date without time-of-day, as produced by the Python
`datetime.date` values that `st.date_input` returns. -/
structure Date where
  year : Nat
  month : Nat
  day : Nat
deriving DecidableEq, Repr

/-- A pandas `Timestamp` (datetime64 value), modelled to second precision. -/
structure Timestamp where
  year : Nat
  month : Nat
  day : Nat
  hour : Nat
  minute : Nat
  second : Nat
deriving DecidableEq, Repr

/-- Chronological comparison of two timestamps (lexicographic on the fields),
the order pandas uses when comparing a datetime column against a bound. -/
def tsLe (a b : Timestamp) : Bool :=
  decide (a.year < b.year ∨ (a.year = b.year ∧
    (a.month < b.month ∨ (a.month = b.month ∧
      (a.day < b.day ∨ (a.day = b.day ∧
        (a.hour < b.hour ∨ (a.hour = b.hour ∧
          (a.minute < b.minute ∨ (a.minute = b.minute ∧
            a.second ≤ b.second))))))))))

/-- Non-strict chronological comparison of two calendar dates. -/
def dateLe (a b : Date) : Bool :=
  decide (a.year < b.year ∨ (a.year = b.year ∧
    (a.month < b.month ∨ (a.month = b.month ∧ a.day ≤ b.day))))

/-- Strict chronological comparison of two calendar dates. -/
def dateLt (a b : Date) : Bool :=
  decide (a.year < b.year ∨ (a.year = b.year ∧
    (a.month < b.month ∨ (a.month = b.month ∧ a.day < b.day))))

/-- The date portion of a timestamp (Python `Timestamp.date()`). -/
def Timestamp.date (t : Timestamp) : Date :=
  ⟨t.year, t.month, t.day⟩

/-- Conversion of a `datetime.date` to a timestamp, as `pd.to_datetime`
performs it in the filter of `main`: midnight of that day. -/
def Date.toTimestamp (d : Date) : Timestamp :=
  ⟨d.year, d.month, d.day, 0, 0, 0⟩

/-- Numeric value of a non-empty run of digit characters; `none` when the run
is empty or contains a non-digit. -/
def digitsToNat (cs : List Char) : Option Nat :=
  if cs.isEmpty then none
  else cs.foldl (fun acc c =>
    match acc with
    | none => none
    | some n => if c.isDigit then some (n * 10 + (c.toNat - 48)) else none)
    (some 0)

/-- Assembles a timestamp from digit runs for each field, validating the
calendar ranges; any failure yields `none` (a coerced NaT). -/
def mkTimestamp (ys ms ds hs mis ss : List Char) : Option Timestamp := do
  let y ← digitsToNat ys
  let mo ← digitsToNat ms
  let d ← digitsToNat ds
  let h ← digitsToNat hs
  let mi ← digitsToNat mis
  let se ← digitsToNat ss
  if 1 ≤ mo ∧ mo ≤ 12 ∧ 1 ≤ d ∧ d ≤ 31 ∧ h < 24 ∧ mi < 60 ∧ se < 60 then
    some ⟨y, mo, d, h, mi, se⟩
  else
    none

/-- Parsing of one ISO-like datetime string (the dataset format,
`YYYY-MM-DD HH:MM:SS`, or a bare `YYYY-MM-DD`) as done by
`pd.to_datetime(..., errors="coerce")`; any string outside this shape, or with
out-of-range fields, coerces to `none` (NaT). -/
def parseTimestampString (s : String) : Option Timestamp :=
  match s.toList with
  | [y1, y2, y3, y4, '-', m1, m2, '-', d1, d2] =>
      mkTimestamp [y1, y2, y3, y4] [m1, m2] [d1, d2] ['0'] ['0'] ['0']
  | [y1, y2, y3, y4, '-', m1, m2, '-', d1, d2, ' ', h1, h2, ':', mi1, mi2, ':', s1, s2] =>
      mkTimestamp [y1, y2, y3, y4] [m1, m2] [d1, d2] [h1, h2] [mi1, mi2] [s1, s2]
  | _ => none

/-- One cell of the `order_purchase_timestamp` column: either the raw CSV
string (before `prepare_data` runs) or a converted datetime value, where
`none` is pandas NaT. -/
inductive TSVal where
  | raw (s : String)
  | dt (t : Option Timestamp)
deriving DecidableEq, Repr

/-- Application of `pd.to_datetime(..., errors="coerce")` to one cell: a raw
string is parsed, with failures coerced to NaT; an already-converted datetime
cell is returned unchanged. -/
def toDatetime (v : TSVal) : Option Timestamp :=
  match v with
  | .raw s => parseTimestampString s
  | .dt t => t

/-- One row (order line) of the dataset.  `purchase_month` holds the derived
column's cell once `prepare_data` has created it; the dataframe records
separately whether that column exists. -/
structure Row where
  order_item_id : Nat
  product_id : String
  product_category_name : String
  seller_state : String
  order_purchase_timestamp : TSVal
  review_score : Nat
  purchase_month : Option Nat
deriving DecidableEq, Repr

/-- The in-memory dataset: the rows together with presence flags for the
timestamp column and the derived `purchase_month` column. -/
structure DataFrame where
  hasTimestampCol : Bool
  hasPurchaseMonthCol : Bool
  rows : List Row
deriving DecidableEq, Repr

/-- Result of `prepare_data`: the returned dataframe plus whether the
`st.warning` and `st.error` calls fired. -/
structure PrepResult where
  df : DataFrame
  warned : Bool
  errored : Bool
deriving DecidableEq, Repr

/-- Translation of `prepare_data` (dashboard.py lines 21-31): when the
timestamp column exists, convert it with `pd.to_datetime(errors="coerce")`,
derive `purchase_month` as `.dt.month` (null for NaT), and warn when any
converted value is null; when the column is absent, surface an error and
return the dataframe unmodified. -/
def prepare_data (df : DataFrame) : PrepResult :=
  if df.hasTimestampCol then
    let newRows := df.rows.map (fun r =>
      let t := toDatetime r.order_purchase_timestamp
      { r with
          order_purchase_timestamp := TSVal.dt t
          purchase_month := t.map Timestamp.month })
    { df := { df with hasPurchaseMonthCol := true, rows := newRows }
      warned := newRows.any (fun r => (toDatetime r.order_purchase_timestamp).isNone)
      errored := false }
  else
    { df := df, warned := false, errored := true }

/-- The datetime value of a row's timestamp cell, `none` for NaT (a raw,
never-converted cell also has no datetime value; the functions below are only
applied after `prepare_data`, which converts every cell). -/
def rowTs (r : Row) : Option Timestamp :=
  match r.order_purchase_timestamp with
  | .dt t => t
  | .raw _ => none

/-- The date-range filter of `main` (dashboard.py lines 154-155): keep the
rows whose full purchase timestamp is between `pd.to_datetime(start_date)` and
`pd.to_datetime(end_date)` (midnights of the picked dates); a NaT timestamp
satisfies neither comparison, as in pandas. -/
def filterByDateRange (rows : List Row) (start_date end_date : Date) : List Row :=
  rows.filter (fun r =>
    match rowTs r with
    | some t => tsLe start_date.toTimestamp t && tsLe t end_date.toTimestamp
    | none => false)

/-- Left fold computing the chronologically smallest of `t :: ts`. -/
def foldMin (t : Timestamp) (ts : List Timestamp) : Timestamp :=
  ts.foldl (fun a b => if tsLe b a then b else a) t

/-- Left fold computing the chronologically largest of `t :: ts`. -/
def foldMax (t : Timestamp) (ts : List Timestamp) : Timestamp :=
  ts.foldl (fun a b => if tsLe a b then b else a) t

/-- Translation of `main_data['order_purchase_timestamp'].min()` (dashboard.py
line 144): the smallest non-null timestamp, `none` (NaT) when every value is
null or the dataset is empty. -/
def minTimestamp (rows : List Row) : Option Timestamp :=
  match rows.filterMap rowTs with
  | [] => none
  | t :: ts => some (foldMin t ts)

/-- Translation of `main_data['order_purchase_timestamp'].max()` (dashboard.py
line 145): the largest non-null timestamp, `none` (NaT) when every value is
null or the dataset is empty. -/
def maxTimestamp (rows : List Row) : Option Timestamp :=
  match rows.filterMap rowTs with
  | [] => none
  | t :: ts => some (foldMax t ts)

/-- Lexicographic comparison of character lists, the order Python uses on
strings (and hence the order of pandas `groupby` keys). -/
def charListLe : List Char → List Char → Bool
  | [], _ => true
  | _ :: _, [] => false
  | a :: as, b :: bs =>
      if a.toNat < b.toNat then true
      else if a.toNat = b.toNat then charListLe as bs
      else false

/-- Lexicographic comparison of strings. -/
def strLe (a b : String) : Bool :=
  charListLe a.toList b.toList

/-- The aggregation of `plot_total_sales_by_state` (dashboard.py lines 95-98):
group by `seller_state` (group keys ascending, the pandas `groupby` default),
count the `order_item_id` entries of each group, then sort by count
descending (`sort_values(ascending=False)`). -/
def total_sales_by_state (rows : List Row) : List (String × Nat) :=
  let keys := List.insertionSort (fun a b => strLe a b = true) (rows.map Row.seller_state).dedup
  let table := keys.map (fun s => (s, rows.countP (fun r => r.seller_state == s)))
  List.insertionSort (fun a b => b.2 ≤ a.2) table

/-- Selection semantics of pandas `nlargest(n)` on a count column: stable
descending sort by count (ties keep first occurrence), then the first `n`. -/
def nlargestByCount (n : Nat) (table : List (String × Nat)) : List (String × Nat) :=
  (List.insertionSort (fun a b => b.2 ≤ a.2) table).take n

/-- Translation of `get_top_products` (dashboard.py lines 123-126): group by
`product_id`, count the `order_item_id` entries per product, and return the
ids of the `n` products with the highest counts (default `n = 10`). -/
def get_top_products (rows : List Row) (n : Nat := 10) : List String :=
  let keys := List.insertionSort (fun a b => strLe a b = true) (rows.map Row.product_id).dedup
  let table := keys.map (fun p => (p, rows.countP (fun r => r.product_id == p)))
  (nlargestByCount n table).map Prod.fst

/-- The aggregation of `plot_sales_trends_top_products` (dashboard.py lines
109-112): restrict to the selected product, group by `purchase_month` (null
months dropped and keys sorted ascending, the pandas `groupby` defaults), and
count the rows of each month.  No later reordering is applied. -/
def sales_trend_product (rows : List Row) (selected_product : String) : List (Nat × Nat) :=
  let sel := rows.filter (fun r => r.product_id == selected_product)
  let months := List.insertionSort (fun a b => a ≤ b) (sel.filterMap Row.purchase_month).dedup
  months.map (fun m => (m, sel.countP (fun r => r.purchase_month == some m)))

/-- Decidable test that a timestamp has midnight time-of-day. -/
def isMidnightB (t : Timestamp) : Bool :=
  decide (t.hour = 0 ∧ t.minute = 0 ∧ t.second = 0)

/-- Decidable test that a row's timestamp cell is a parsed, non-null datetime
whose time-of-day is midnight. -/
def parsedMidnight (r : Row) : Bool :=
  match rowTs r with
  | some t => isMidnightB t
  | none => false

/-! Helper lemmas about the chronological orders and the column min/max. -/

theorem tsLe_refl (a : Timestamp) : tsLe a a = true := by
  simp [tsLe]

theorem tsLe_total (a b : Timestamp) : tsLe a b = true ∨ tsLe b a = true := by
  simp only [tsLe, decide_eq_true_eq]
  omega

theorem tsLe_trans {a b c : Timestamp} (h1 : tsLe a b = true) (h2 : tsLe b c = true) :
    tsLe a c = true := by
  simp only [tsLe, decide_eq_true_eq] at h1 h2 ⊢
  omega

theorem foldMin_mem (t : Timestamp) (ts : List Timestamp) : foldMin t ts ∈ t :: ts := by
  induction ts generalizing t with
  | nil => simp [foldMin]
  | cons b bs ih =>
    have step : foldMin t (b :: bs) = foldMin (if tsLe b t then b else t) bs := rfl
    rw [step]
    by_cases hb : tsLe b t
    · rw [if_pos hb]
      rcases List.mem_cons.mp (ih b) with h | h
      · rw [h]; simp
      · simp [h]
    · rw [if_neg hb]
      rcases List.mem_cons.mp (ih t) with h | h
      · rw [h]; simp
      · simp [h]

theorem foldMin_le (t : Timestamp) (ts : List Timestamp) :
    ∀ x ∈ t :: ts, tsLe (foldMin t ts) x = true := by
  induction ts generalizing t with
  | nil =>
    intro x hx
    simp at hx
    subst hx
    exact tsLe_refl _
  | cons b bs ih =>
    intro x hx
    have step : foldMin t (b :: bs) = foldMin (if tsLe b t then b else t) bs := rfl
    rw [step]
    by_cases hb : tsLe b t
    · rw [if_pos hb]
      have hd := ih b b (List.mem_cons_self _ _)
      rcases List.mem_cons.mp hx with rfl | hx2
      · exact tsLe_trans hd hb
      · rcases List.mem_cons.mp hx2 with rfl | hx3
        · exact hd
        · exact ih b x (List.mem_cons_of_mem _ hx3)
    · rw [if_neg hb]
      have hd := ih t t (List.mem_cons_self _ _)
      rcases List.mem_cons.mp hx with rfl | hx2
      · exact hd
      · rcases List.mem_cons.mp hx2 with rfl | hx3
        · exact tsLe_trans hd ((tsLe_total x t).resolve_left hb)
        · exact ih t x (List.mem_cons_of_mem _ hx3)

theorem foldMax_mem (t : Timestamp) (ts : List Timestamp) : foldMax t ts ∈ t :: ts := by
  induction ts generalizing t with
  | nil => simp [foldMax]
  | cons b bs ih =>
    have step : foldMax t (b :: bs) = foldMax (if tsLe t b then b else t) bs := rfl
    rw [step]
    by_cases hb : tsLe t b
    · rw [if_pos hb]
      rcases List.mem_cons.mp (ih b) with h | h
      · rw [h]; simp
      · simp [h]
    · rw [if_neg hb]
      rcases List.mem_cons.mp (ih t) with h | h
      · rw [h]; simp
      · simp [h]

theorem foldMax_ge (t : Timestamp) (ts : List Timestamp) :
    ∀ x ∈ t :: ts, tsLe x (foldMax t ts) = true := by
  induction ts generalizing t with
  | nil =>
    intro x hx
    simp at hx
    subst hx
    exact tsLe_refl _
  | cons b bs ih =>
    intro x hx
    have step : foldMax t (b :: bs) = foldMax (if tsLe t b then b else t) bs := rfl
    rw [step]
    by_cases hb : tsLe t b
    · rw [if_pos hb]
      have hd := ih b b (List.mem_cons_self _ _)
      rcases List.mem_cons.mp hx with rfl | hx2
      · exact tsLe_trans hb hd
      · rcases List.mem_cons.mp hx2 with rfl | hx3
        · exact hd
        · exact ih b x (List.mem_cons_of_mem _ hx3)
    · rw [if_neg hb]
      have hd := ih t t (List.mem_cons_self _ _)
      rcases List.mem_cons.mp hx with rfl | hx2
      · exact hd
      · rcases List.mem_cons.mp hx2 with rfl | hx3
        · exact tsLe_trans ((tsLe_total t x).resolve_left hb) hd
        · exact ih t x (List.mem_cons_of_mem _ hx3)

theorem minTimestamp_le {rows : List Row} {mn : Timestamp}
    (h : minTimestamp rows = some mn) :
    ∀ r ∈ rows, ∀ t, rowTs r = some t → tsLe mn t = true := by
  intro r hr t ht
  have hmem : t ∈ rows.filterMap rowTs := List.mem_filterMap.mpr ⟨r, hr, ht⟩
  unfold minTimestamp at h
  cases hfm : rows.filterMap rowTs with
  | nil => rw [hfm] at h; exact absurd h (by simp)
  | cons a as =>
    rw [hfm] at h hmem
    have heq : foldMin a as = mn := by
      simpa using h
    rw [← heq]
    exact foldMin_le a as t hmem

theorem minTimestamp_mem {rows : List Row} {mn : Timestamp}
    (h : minTimestamp rows = some mn) :
    ∃ r ∈ rows, rowTs r = some mn := by
  unfold minTimestamp at h
  cases hfm : rows.filterMap rowTs with
  | nil => rw [hfm] at h; exact absurd h (by simp)
  | cons a as =>
    rw [hfm] at h
    have heq : foldMin a as = mn := by
      simpa using h
    have : mn ∈ rows.filterMap rowTs := by
      rw [hfm, ← heq]
      exact foldMin_mem a as
    exact List.mem_filterMap.mp this

theorem maxTimestamp_ge {rows : List Row} {mx : Timestamp}
    (h : maxTimestamp rows = some mx) :
    ∀ r ∈ rows, ∀ t, rowTs r = some t → tsLe t mx = true := by
  intro r hr t ht
  have hmem : t ∈ rows.filterMap rowTs := List.mem_filterMap.mpr ⟨r, hr, ht⟩
  unfold maxTimestamp at h
  cases hfm : rows.filterMap rowTs with
  | nil => rw [hfm] at h; exact absurd h (by simp)
  | cons a as =>
    rw [hfm] at h hmem
    have heq : foldMax a as = mx := by
      simpa using h
    rw [← heq]
    exact foldMax_ge a as t hmem

theorem maxTimestamp_mem {rows : List Row} {mx : Timestamp}
    (h : maxTimestamp rows = some mx) :
    ∃ r ∈ rows, rowTs r = some mx := by
  unfold maxTimestamp at h
  cases hfm : rows.filterMap rowTs with
  | nil => rw [hfm] at h; exact absurd h (by simp)
  | cons a as =>
    rw [hfm] at h
    have heq : foldMax a as = mx := by
      simpa using h
    have : mx ∈ rows.filterMap rowTs := by
      rw [hfm, ← heq]
      exact foldMax_mem a as
    exact List.mem_filterMap.mp this

theorem midnight_toTimestamp_date {t : Timestamp} (h : isMidnightB t = true) :
    t.date.toTimestamp = t := by
  cases t with
  | mk y mo d hh mi se =>
    simp only [isMidnightB, decide_eq_true_eq] at h
    obtain ⟨h1, h2, h3⟩ := h
    simp [Timestamp.date, Date.toTimestamp, h1, h2, h3]

theorem tsLe_toTimestamp_left_iff (s : Date) (t : Timestamp) :
    tsLe s.toTimestamp t = true ↔ dateLe s t.date = true := by
  cases t with
  | mk y mo d hh mi se =>
    cases s with
    | mk sy sm sd =>
      simp only [tsLe, dateLe, Date.toTimestamp, Timestamp.date, decide_eq_true_eq]
      omega

theorem tsLe_toTimestamp_right_iff (t : Timestamp) (e : Date) :
    tsLe t e.toTimestamp = true ↔ (dateLt t.date e = true ∨ t = e.toTimestamp) := by
  cases t with
  | mk y mo d hh mi se =>
    cases e with
    | mk ey em ed =>
      simp only [tsLe, dateLt, Date.toTimestamp, Timestamp.date, decide_eq_true_eq,
        Timestamp.mk.injEq]
      omega

theorem tsLe_toTimestamp_of_dateLt {s e : Date} (h : dateLt e s = true) :
    tsLe s.toTimestamp e.toTimestamp = false := by
  cases s with
  | mk sy sm sd =>
    cases e with
    | mk ey em ed =>
      simp only [dateLt, decide_eq_true_eq] at h
      simp only [tsLe, Date.toTimestamp, decide_eq_false_iff_not]
      omega

/-! Concrete rows used by the witnesses and counterexamples below. -/

/-- A sample order line with the given product id, seller state, timestamp
cell and derived month; the remaining columns take fixed values. -/
def sampleRow (pid st : String) (t : Option Timestamp) (m : Option Nat) : Row :=
  { order_item_id := 1, product_id := pid, product_category_name := "cat",
    seller_state := st, order_purchase_timestamp := TSVal.dt t,
    review_score := 5, purchase_month := m }

/-- A prepared row whose purchase timestamp falls at 10:00 on 2017-01-01. -/
def rowTenAM : Row :=
  sampleRow "a" "SP" (some ⟨2017, 1, 1, 10, 0, 0⟩) (some 1)

/-- A prepared row whose purchase timestamp falls at 10:00 on 2017-01-02. -/
def rowJan2TenAM : Row :=
  sampleRow "a" "SP" (some ⟨2017, 1, 2, 10, 0, 0⟩) (some 1)

/-- A two-row prepared dataset whose timestamps are both midnights. -/
def rowsMidnight : List Row :=
  [sampleRow "a" "SP" (some ⟨2017, 1, 1, 0, 0, 0⟩) (some 1),
   sampleRow "b" "RJ" (some ⟨2017, 3, 5, 0, 0, 0⟩) (some 3)]

/-- A prepared dataset with two distinct product ids. -/
def rowsTwoProducts : List Row :=
  [sampleRow "a" "SP" (some ⟨2017, 1, 1, 0, 0, 0⟩) (some 1),
   sampleRow "b" "RJ" (some ⟨2017, 1, 2, 0, 0, 0⟩) (some 1)]

/-- A prepared dataset with exactly ten distinct product ids. -/
def rowsTenProducts : List Row :=
  ["p0", "p1", "p2", "p3", "p4", "p5", "p6", "p7", "p8", "p9"].map
    (fun pid => sampleRow pid "SP" (some ⟨2017, 1, 1, 0, 0, 0⟩) (some 1))

/-! The claims. -/

/-- C4: `prepare_data` is idempotent: applying it to an already-prepared
dataset yields the same `purchase_month` values as applying it once
(unparseable timestamps coerce to null and null months stay null). -/
theorem claim_C4_prepare_idempotent (df : DataFrame) :
    ((prepare_data (prepare_data df).df).df.rows.map Row.purchase_month)
      = ((prepare_data df).df.rows.map Row.purchase_month) := by
  by_cases h : df.hasTimestampCol
  · simp [prepare_data, h, List.map_map, Function.comp, toDatetime]
  · simp [prepare_data, h]

/-- C5: invoked on an empty dataset, the aggregations return an empty summary
table rather than raising an error: total-sales-per-state yields an empty
table and the top-N helper yields an empty product sequence for every `n`. -/
theorem claim_C5_empty_input :
    total_sales_by_state [] = [] ∧ ∀ n : Nat, get_top_products [] n = [] := by
  constructor
  · rfl
  · intro n
    simp [get_top_products, nlargestByCount]

/-- C6: when the dataset lacks the purchase-timestamp column, `prepare_data`
surfaces a non-crashing error and returns the dataset unmodified: no column is
added, removed or changed. -/
theorem claim_C6_missing_column (df : DataFrame) (h : df.hasTimestampCol = false) :
    (prepare_data df).df = df ∧ (prepare_data df).errored = true := by
  simp [prepare_data, h]

/-- Witness for C6 at a concrete dataset without the timestamp column. -/
theorem claim_C6_missing_column_witness :
    (prepare_data ⟨false, false, [sampleRow "a" "SP" none none]⟩).df
        = ⟨false, false, [sampleRow "a" "SP" none none]⟩
      ∧ (prepare_data ⟨false, false, [sampleRow "a" "SP" none none]⟩).errored = true :=
  claim_C6_missing_column _ rfl

/-- C9: for every date interval with `start > end`, the date-range filter
returns an empty result; it is a total function, so no error is raised. -/
theorem claim_C9_inverted_range (rows : List Row) (s e : Date)
    (h : dateLt e s = true) : filterByDateRange rows s e = [] := by
  unfold filterByDateRange
  rw [List.filter_eq_nil_iff]
  intro r _
  cases hts : rowTs r with
  | none => simp [hts]
  | some t =>
    simp only [hts, Bool.and_eq_true, not_and]
    intro h1 h2
    have := tsLe_trans h1 h2
    rw [tsLe_toTimestamp_of_dateLt h] at this
    exact absurd this (by simp)

/-- Witness for C9 at a concrete inverted interval. -/
theorem claim_C9_inverted_range_witness :
    dateLt ⟨2017, 1, 1⟩ ⟨2017, 1, 2⟩ = true
      ∧ filterByDateRange [rowTenAM] ⟨2017, 1, 2⟩ ⟨2017, 1, 1⟩ = [] :=
  ⟨by decide, claim_C9_inverted_range _ _ _ (by decide)⟩

theorem countP_eq_count_map (rows : List Row) (f : Row → String) (s : String) :
    rows.countP (fun r => f r == s) = (rows.map f).count s := by
  rw [List.count_eq_countP, List.countP_map]
  rfl

/-- C3: in the total-sales-per-state summary the per-state counts sum to the
row count of the filtered input dataset. -/
theorem claim_C3_state_counts_sum (rows : List Row) :
    ((total_sales_by_state rows).map Prod.snd).sum = rows.length := by
  simp only [total_sales_by_state]
  rw [((List.perm_insertionSort _ _).map Prod.snd).sum_eq, List.map_map]
  rw [((List.perm_insertionSort _ _).map _).sum_eq]
  have hc : (Prod.snd ∘ fun s => (s, rows.countP (fun r => r.seller_state == s)))
      = fun s => (rows.map Row.seller_state).count s := by
    funext s
    exact countP_eq_count_map rows Row.seller_state s
  rw [hc, List.sum_map_count_dedup_eq_length, List.length_map]

/-- C10: the top-N helper never returns more than `n` products: its result
length is `min n (number of distinct product ids)`, and when the dataset has
fewer than `n` distinct product ids it returns exactly the distinct product
ids present. -/
theorem claim_C10_top_n_length (rows : List Row) (n : Nat) :
    (get_top_products rows n).length = min n (rows.map Row.product_id).dedup.length
    ∧ ((rows.map Row.product_id).dedup.length < n →
        ∀ p : String, p ∈ get_top_products rows n ↔ p ∈ rows.map Row.product_id) := by
  constructor
  · simp only [get_top_products, nlargestByCount]
    rw [List.length_map, List.length_take, List.length_insertionSort, List.length_map,
      List.length_insertionSort]
  · intro h p
    simp only [get_top_products, nlargestByCount]
    rw [List.take_of_length_le (by
      rw [List.length_insertionSort, List.length_map, List.length_insertionSort]
      omega)]
    simp [List.mem_map, List.mem_insertionSort, List.mem_dedup]

/-- Witness for C10 at a concrete dataset with two distinct products and
`n = 3`. -/
theorem claim_C10_top_n_length_witness :
    ((get_top_products rowsTwoProducts 3).length
        = min 3 (rowsTwoProducts.map Row.product_id).dedup.length)
      ∧ (rowsTwoProducts.map Row.product_id).dedup.length < 3
      ∧ ("a" ∈ get_top_products rowsTwoProducts 3 ↔ "a" ∈ rowsTwoProducts.map Row.product_id) :=
  ⟨(claim_C10_top_n_length rowsTwoProducts 3).1, by decide,
    (claim_C10_top_n_length rowsTwoProducts 3).2 (by decide) "a"⟩

/-- C8: on a dataset with exactly 10 distinct product ids, the top-N helper
with `n = 10` returns exactly the distinct product ids present, so the
returned products cover every input row. -/
theorem claim_C8_ten_products (rows : List Row)
    (h : (rows.map Row.product_id).dedup.length = 10) :
    (∀ p : String, p ∈ get_top_products rows 10 ↔ p ∈ rows.map Row.product_id)
    ∧ ∀ r ∈ rows, r.product_id ∈ get_top_products rows 10 := by
  have hmem : ∀ p : String, p ∈ get_top_products rows 10 ↔ p ∈ rows.map Row.product_id := by
    intro p
    simp only [get_top_products, nlargestByCount]
    rw [List.take_of_length_le (by
      rw [List.length_insertionSort, List.length_map, List.length_insertionSort, h])]
    simp [List.mem_map, List.mem_insertionSort, List.mem_dedup]
  exact ⟨hmem, fun r hr => (hmem r.product_id).mpr (List.mem_map_of_mem _ hr)⟩

/-- Witness for C8 at a concrete dataset with exactly ten distinct products. -/
theorem claim_C8_ten_products_witness :
    (rowsTenProducts.map Row.product_id).dedup.length = 10
      ∧ ("p3" ∈ get_top_products rowsTenProducts 10
          ↔ "p3" ∈ rowsTenProducts.map Row.product_id)
      ∧ ∀ r ∈ rowsTenProducts, r.product_id ∈ get_top_products rowsTenProducts 10 :=
  ⟨by decide, (claim_C8_ten_products rowsTenProducts (by decide)).1 "p3",
    (claim_C8_ten_products rowsTenProducts (by decide)).2⟩

/-- C7: the sales-trend-for-one-product aggregation produces one row per month
that has at least one matching row (a matching row is one whose product id is
the selected product and whose derived month is non-null), and its rows are in
ascending month order, preserving chronological order. -/
theorem claim_C7_trend_months (rows : List Row) (p : String) :
    List.Sorted (· ≤ ·) ((sales_trend_product rows p).map Prod.fst)
    ∧ ((sales_trend_product rows p).map Prod.fst).Nodup
    ∧ ∀ m : Nat, m ∈ (sales_trend_product rows p).map Prod.fst ↔
        ∃ r ∈ rows, r.product_id = p ∧ r.purchase_month = some m := by
  have hfst : (sales_trend_product rows p).map Prod.fst
      = List.insertionSort (fun a b => a ≤ b)
          ((rows.filter (fun r => r.product_id == p)).filterMap Row.purchase_month).dedup := by
    simp only [sales_trend_product, List.map_map]
    exact List.map_id _
  refine ⟨?_, ?_, ?_⟩
  · rw [hfst]
    exact List.sorted_insertionSort _ _
  · rw [hfst]
    exact ((List.perm_insertionSort _ _).nodup_iff).mpr (List.nodup_dedup _)
  · intro m
    rw [hfst]
    simp only [List.mem_insertionSort, List.mem_dedup, List.mem_filterMap, List.mem_filter,
      beq_iff_eq]
    constructor
    · rintro ⟨r, ⟨hr, hp⟩, hm⟩
      exact ⟨r, hr, hp, hm⟩
    · rintro ⟨r, hr, hp, hm⟩
      exact ⟨r, ⟨hr, hp⟩, hm⟩

/-- C1 counterexample: a one-row prepared dataset whose single timestamp falls
at 10:00; filtering by the closed interval from the minimum to the maximum
purchase timestamp (as `main` does, through the dates handed to the picker and
back through `pd.to_datetime`, i.e. midnights) drops the row, so the filtered
row count differs from the dataset row count. -/
theorem claim_C1_counterexample :
    minTimestamp [rowTenAM] = some ⟨2017, 1, 1, 10, 0, 0⟩
      ∧ maxTimestamp [rowTenAM] = some ⟨2017, 1, 1, 10, 0, 0⟩
      ∧ (filterByDateRange [rowTenAM]
            (Timestamp.date ⟨2017, 1, 1, 10, 0, 0⟩)
            (Timestamp.date ⟨2017, 1, 1, 10, 0, 0⟩)).length
          ≠ ([rowTenAM] : List Row).length := by
  decide

/-- C1 amended: filtering by the full `[min_date, max_date]` interval returns
the entire prepared dataset in row count, provided every purchase timestamp
parsed (is non-null) and has midnight time-of-day; otherwise rows with null
timestamps, or with nonzero time-of-day on the maximum date, are dropped. -/
theorem claim_C1_amended (rows : List Row) (mn mx : Timestamp)
    (hmn : minTimestamp rows = some mn) (hmx : maxTimestamp rows = some mx)
    (hmid : rows.all parsedMidnight = true) :
    (filterByDateRange rows mn.date mx.date).length = rows.length := by
  suffices hall : ∀ r ∈ rows, (match rowTs r with
      | some t => tsLe mn.date.toTimestamp t && tsLe t mx.date.toTimestamp
      | none => false) = true by
    unfold filterByDateRange
    rw [List.filter_eq_self.mpr hall]
  intro r hr
  have hpm := List.all_eq_true.mp hmid r hr
  unfold parsedMidnight at hpm
  cases hts : rowTs r with
  | none =>
    rw [hts] at hpm
    exact absurd hpm (by simp)
  | some t =>
    rw [hts] at hpm
    obtain ⟨rmn, hrmn, hrtsmn⟩ := minTimestamp_mem hmn
    have hpmn := List.all_eq_true.mp hmid rmn hrmn
    unfold parsedMidnight at hpmn
    rw [hrtsmn] at hpmn
    obtain ⟨rmx, hrmx, hrtsmx⟩ := maxTimestamp_mem hmx
    have hpmx := List.all_eq_true.mp hmid rmx hrmx
    unfold parsedMidnight at hpmx
    rw [hrtsmx] at hpmx
    simp only [midnight_toTimestamp_date hpmn, midnight_toTimestamp_date hpmx,
      Bool.and_eq_true]
    exact ⟨minTimestamp_le hmn r hr t hts, maxTimestamp_ge hmx r hr t hts⟩

/-- Witness for the amended C1 at a concrete all-midnight dataset. -/
theorem claim_C1_amended_witness :
    minTimestamp rowsMidnight = some ⟨2017, 1, 1, 0, 0, 0⟩
      ∧ maxTimestamp rowsMidnight = some ⟨2017, 3, 5, 0, 0, 0⟩
      ∧ rowsMidnight.all parsedMidnight = true
      ∧ (filterByDateRange rowsMidnight
            (Timestamp.date ⟨2017, 1, 1, 0, 0, 0⟩)
            (Timestamp.date ⟨2017, 3, 5, 0, 0, 0⟩)).length = rowsMidnight.length :=
  ⟨by decide, by decide, by decide,
    claim_C1_amended rowsMidnight _ _ (by decide) (by decide) (by decide)⟩

/-- C2 counterexample: a row dated 2017-01-02 10:00 whose date portion lies in
the closed date interval `[2017-01-01, 2017-01-02]`, yet the filter excludes
it, because the code compares the full timestamp against midnight of the end
date rather than comparing date portions. -/
theorem claim_C2_counterexample :
    dateLe ⟨2017, 1, 1⟩ (Timestamp.date ⟨2017, 1, 2, 10, 0, 0⟩) = true
      ∧ dateLe (Timestamp.date ⟨2017, 1, 2, 10, 0, 0⟩) ⟨2017, 1, 2⟩ = true
      ∧ filterByDateRange [rowJan2TenAM] ⟨2017, 1, 1⟩ ⟨2017, 1, 2⟩ = [] := by
  decide

/-- C2 amended: the date-range filter returns exactly the rows with a non-null
purchase timestamp whose full timestamp lies in the closed interval from
midnight of `start` to midnight of `end`: equivalently, the timestamp's date
portion is at least `start`, and either its date portion is strictly before
`end` or the timestamp is exactly midnight of `end`.  The comparison is on the
full timestamp, so rows on the end date with nonzero time-of-day are
excluded. -/
theorem claim_C2_amended (rows : List Row) (s e : Date) (r : Row) :
    r ∈ filterByDateRange rows s e ↔
      r ∈ rows ∧ ∃ t, rowTs r = some t ∧ dateLe s t.date = true
        ∧ (dateLt t.date e = true ∨ t = e.toTimestamp) := by
  unfold filterByDateRange
  rw [List.mem_filter]
  cases hts : rowTs r with
  | none => simp [hts]
  | some t =>
    simp only [hts, Option.some.injEq, Bool.and_eq_true]
    constructor
    · rintro ⟨hr, h1, h2⟩
      exact ⟨hr, t, rfl,
        (tsLe_toTimestamp_left_iff s t).mp h1,
        (tsLe_toTimestamp_right_iff t e).mp h2⟩
    · rintro ⟨hr, t2, ht2, h1, h2⟩
      subst ht2
      exact ⟨hr,
        (tsLe_toTimestamp_left_iff s t).mpr h1,
        (tsLe_toTimestamp_right_iff t e).mpr h2⟩

end Dashboard
